import Mathlib

/-!
Shallow embedding of the revision-tracked hierarchical document store of
this repository (wiki/models/article.py and wiki/models/urlpath.py), with
theorems settling the specification claims about it.

Machine integers do not occur: Python integers are unbounded, so revision
numbers are Int and primary keys are Nat. Fallible operations return
Except or Option. Django querysets over a table are lists of rows.
-/

deriving instance DecidableEq for Except

namespace WikiModel

/-- Errors surfaced by URL-path resolution and tree-node deletion:
NoRootURL and MultipleRootURLs from wiki/core/exceptions.py, the
DoesNotExist and MultipleObjectsReturned raised by queryset.get, and the
AssertionError raised in URLPath.delete. -/
inductive WErr where
  | noRootURL
  | multipleRootURLs
  | doesNotExist
  | multipleObjectsReturned
  | assertionError
  deriving DecidableEq

/-- One row of the URLPath table (urlpath.py, class URLPath): primary key,
slug (null only on a root), site foreign key, parent tree foreign key
(null only on a root), the MPTT level column used by order_by with
descending level, and the denormalized article foreign key. -/
structure URLPathRow where
  id : Nat
  slug : Option String
  site : Nat
  parent : Option Nat
  level : Nat
  article : Nat
  deriving DecidableEq

/-- A URLPath instance as handed back by resolution: the row together with
the populated cached_ancestors list (urlpath.py lines 59-80). -/
structure ResolvedPath where
  node : URLPathRow
  cached_ancestors : List URLPathRow
  deriving DecidableEq

/-- The children queryset of node id i, as parent.get_children() in
get_by_path: the rows whose parent foreign key is i. -/
def childrenOf (db : List URLPathRow) (i : Nat) : List URLPathRow :=
  db.filter (fun n => n.parent == some i)

/-- URLPath.root (urlpath.py lines 118-131): fetch the root nodes of the
current site, raise NoRootURL when there are none and MultipleRootURLs
when there is more than one, otherwise return root_nodes[0]; a root has no
ancestors, so its ancestor list is empty. -/
def rootOf (db : List URLPathRow) (site : Nat) : Except WErr ResolvedPath :=
  let root_nodes := db.filter (fun n => n.parent == none && n.site == site)
  if root_nodes.length = 0 then .error .noRootURL
  else if root_nodes.length > 1 then .error .multipleRootURLs
  else
    match root_nodes.head? with
    | some r => .ok ⟨r, []⟩
    | none => .error .noRootURL

/-- Python path.lstrip applied to the separator: drop leading slashes. -/
def lstripSlash (s : String) : String :=
  ⟨s.data.dropWhile (fun c => c == '/')⟩

/-- Python path.rstrip applied to the separator: drop trailing slashes. -/
def rstripSlash (s : String) : String :=
  ⟨(s.data.reverse.dropWhile (fun c => c == '/')).reverse⟩

/-- Helper for splitSlash: accumulates the current segment (reversed). -/
def splitSlashAux : List Char → List Char → List String
  | [], acc => [⟨acc.reverse⟩]
  | c :: rest, acc =>
    if c == '/' then ⟨acc.reverse⟩ :: splitSlashAux rest []
    else splitSlashAux rest (c :: acc)

/-- Python path.split on the separator: splitSlash of a/b is [a, b] and
splitSlash of the empty string is a list holding one empty string. -/
def splitSlash (s : String) : List String :=
  splitSlashAux s.data []

/-- ASCII lowercase of one character, for the case-insensitive slug lookup
slug__iexact in get_by_path. -/
def lowerChar (c : Char) : Char :=
  if c.toNat ≥ 65 ∧ c.toNat ≤ 90 then Char.ofNat (c.toNat + 32) else c

/-- ASCII lowercase of a string. -/
def lowerStr (s : String) : String :=
  ⟨s.data.map lowerChar⟩

/-- Queryset .get: exactly one matching row, DoesNotExist on zero,
MultipleObjectsReturned on several. -/
def getOne (l : List URLPathRow) : Except WErr URLPathRow :=
  match l with
  | [] => .error .doesNotExist
  | [x] => .ok x
  | _ => .error .multipleObjectsReturned

/-- One iteration of the resolution loop of URLPath.get_by_path (urlpath.py
lines 183-192): fetch the unique child of parent matching the slug, with
an exact comparison when URL_CASE_SENSITIVE and a case-insensitive one
otherwise, and extend cached_ancestors by the parent. -/
def childStep (db : List URLPathRow) (url_case_sensitive : Bool)
    (parent : ResolvedPath) (slug : String) : Except WErr ResolvedPath :=
  let kids := childrenOf db parent.node.id
  let matching :=
    if url_case_sensitive then
      kids.filter (fun c => c.slug == some slug)
    else
      kids.filter (fun c => c.slug.map lowerStr == some (lowerStr slug))
  match getOne matching with
  | .ok child => .ok ⟨child, parent.cached_ancestors ++ [parent.node]⟩
  | .error e => .error e

/-- URLPath.get_by_path (urlpath.py lines 162-194): strip leading and
trailing separators, resolve the empty path to the site root, otherwise
split on the separator and walk down from the root matching child slugs
one segment at a time. The url_case_sensitive argument stands for the
global setting URL_CASE_SENSITIVE. -/
def get_by_path (db : List URLPathRow) (site : Nat) (url_case_sensitive : Bool)
    (p : String) : Except WErr ResolvedPath :=
  let stripped := rstripSlash (lstripSlash p)
  if stripped = "" then rootOf db site
  else
    let slugs := splitSlash stripped
    match rootOf db site with
    | .error e => .error e
    | .ok parent => slugs.foldlM (childStep db url_case_sensitive) parent

/-- The URLPath.path property (urlpath.py lines 82-89): the empty string
for a root; otherwise the slugs of the non-root cached ancestors plus the
own slug, joined by the separator, with a trailing separator; a null slug
contributes the empty string. -/
def pathString (p : ResolvedPath) : String :=
  match p.node.parent with
  | none => ""
  | some _ =>
    let ancestors := p.cached_ancestors.filter (fun a => a.parent.isSome)
    let slugs := (ancestors ++ [p.node]).map (fun o => o.slug.getD "")
    String.intercalate "/" slugs ++ "/"

/-- Descendants of the node with id i, computed with fuel bounded by the
table size (MPTT get_descendants without self). -/
def descendantsAux (db : List URLPathRow) : Nat → Nat → List URLPathRow
  | 0, _ => []
  | fuel + 1, i =>
    (childrenOf db i).flatMap (fun c => c :: descendantsAux db fuel c.id)

/-- All descendants of a node. -/
def descendantsOf (db : List URLPathRow) (n : URLPathRow) : List URLPathRow :=
  descendantsAux db db.length n.id

/-- URLPath.delete (urlpath.py lines 143-145). The assert condition is
not (self.parent and self.get_children()): it raises exactly when the node
has a parent AND a nonempty children queryset. When the assert passes the
row is deleted, and the CASCADE parent foreign key takes the whole subtree
with it. -/
def URLPath_delete (db : List URLPathRow) (n : URLPathRow) :
    Except WErr (List URLPathRow) :=
  if n.parent.isSome && !(childrenOf db n.id).isEmpty then
    .error .assertionError
  else
    let gone := n :: descendantsOf db n
    .ok (db.filter (fun m => gone.all (fun g => g.id != m.id)))

/-- Persistent state touched by subtree deletion: the URLPath table and the
ids of the Article rows. -/
structure TreeDB where
  nodes : List URLPathRow
  articles : List Nat
  deriving DecidableEq

/-- Deleting an Article row: the row disappears and, through the CASCADE
foreign key URLPath.article, so does every URLPath row bound to it. -/
def deleteArticle (db : TreeDB) (a : Nat) : TreeDB :=
  { nodes := db.nodes.filter (fun m => m.article != a),
    articles := db.articles.filter (fun x => x != a) }

/-- Stable insertion into a list sorted by descending level. -/
def insertByLevel (x : URLPathRow) : List URLPathRow → List URLPathRow
  | [] => [x]
  | y :: ys => if y.level < x.level then x :: y :: ys else y :: insertByLevel x ys

/-- Stable sort by descending level, implementing order_by on -level. -/
def sortByLevelDesc : List URLPathRow → List URLPathRow
  | [] => []
  | x :: xs => insertByLevel x (sortByLevelDesc xs)

/-- get_descendants(include_self=True).order_by on -level: the node and all
its descendants, deepest level first (urlpath.py line 110). -/
def orderedSubtree (nodes : List URLPathRow) (n : URLPathRow) : List URLPathRow :=
  sortByLevelDesc (n :: descendantsOf nodes n)

/-- The body of the transaction in URLPath.delete_subtree: delete the
article of each listed row in turn; none at the first deletion the failure
oracle makes raise. -/
def runDeletions (fails : Nat → Bool) : List URLPathRow → TreeDB → Option TreeDB
  | [], db => some db
  | d :: rest, db =>
    if fails d.article then none
    else runDeletions fails rest (deleteArticle db d.article)

/-- URLPath.delete_subtree (urlpath.py lines 103-114): inside one atomic
transaction, delete the article of every subtree member, deepest first; on
any exception the transaction rolls back, so the state is unchanged, and
the exception is logged, not propagated. Returns the resulting state and
whether a failure was logged. -/
def delete_subtree (db : TreeDB) (n : URLPathRow) (fails : Nat → Bool) :
    TreeDB × Bool :=
  match runDeletions fails (orderedSubtree db.nodes n) db with
  | some db2 => (db2, false)
  | none => (db, true)

/-- One persisted ArticleRevision row of a single article (article.py,
class ArticleRevision): primary key, revision_number, and the
previous_revision foreign key, held as the id of the previous row. -/
structure RevRow where
  id : Nat
  revision_number : Int
  previous_revision : Option Nat
  deriving DecidableEq

/-- The persisted state of one Article together with its revision set:
articlerevision_set in persistence order, the current_revision pointer,
and the next free primary key. -/
structure ArticleState where
  revs : List RevRow
  current_revision : Option RevRow
  nextId : Nat
  deriving DecidableEq

/-- An article fresh out of two-phase construction: no revisions, a null
current_revision. -/
def ArticleState.init : ArticleState := ⟨[], none, 0⟩

/-- The revision numbers of the article, in persistence order. -/
def seqNums (s : ArticleState) : List Int :=
  s.revs.map (fun r => r.revision_number)

/-- Maximum of a list of integers, none on the empty list. -/
def maxNum : List Int → Option Int
  | [] => none
  | x :: xs =>
    match maxNum xs with
    | none => some x
    | some m => some (max x m)

/-- articlerevision_set.latest(): with get_latest_by set to
revision_number this is the greatest revision_number present, and none
models the ArticleRevision.DoesNotExist raised on an empty set. -/
def latestNum (s : ArticleState) : Option Int :=
  maxNum (seqNums s)

/-- An unsaved ArticleRevision instance as passed to save: pk (none until
saved), revision_number (none models the unset column; Python treats both
None and 0 as falsy there), and previous_revision. The article foreign
key is implicit: this model tracks a single article and both creation
paths set it before saving. -/
structure NewRevision where
  id : Option Nat := none
  revision_number : Option Int := none
  previous_revision : Option Nat := none
  deriving DecidableEq

/-- Python truthiness of the revision_number attribute in the test
if not self.revision_number: both None and 0 are falsy. -/
def truthyNum : Option Int → Bool
  | none => false
  | some n => n != 0

/-- ArticleRevision.save (article.py lines 316-338) run against the state
of its article: default previous_revision to the current revision for a
fresh instance with no link yet; re-derive revision_number when it is
falsy (unset or 0) as latest plus one, or 1 when the article has no
revisions; persist the row; then, when the article has no current
revision, promote the saved row to current and save the article. The
guard article.current_revision != self holds automatically here because a
fresh unsaved instance is never the already-persisted current row.
Returns the new state and the persisted row. -/
def ArticleRevision_save (s : ArticleState) (r : NewRevision) :
    ArticleState × RevRow :=
  let prev : Option Nat :=
    if r.id == none && r.previous_revision == none && s.current_revision.isSome
    then s.current_revision.map (fun c => c.id)
    else r.previous_revision
  let num : Int :=
    if truthyNum r.revision_number then r.revision_number.getD 0
    else
      match latestNum s with
      | none => 1
      | some m => m + 1
  let row : RevRow := ⟨s.nextId, num, prev⟩
  let s1 : ArticleState := ⟨s.revs ++ [row], s.current_revision, s.nextId + 1⟩
  let s2 : ArticleState :=
    match s1.current_revision with
    | some _ => s1
    | none => ⟨s1.revs, some row, s1.nextId⟩
  (s2, row)

/-- The revision_number Article.add_revision assigns before saving
(article.py lines 148-152): latest plus one, or 0 when the article has no
revisions yet. -/
def add_revision_assigned (s : ArticleState) : Int :=
  match latestNum s with
  | some m => m + 1
  | none => 0

/-- Article.add_revision with save=True on a fresh revision (article.py
lines 139-157): number it with add_revision_assigned, link
previous_revision to the current revision as of the call, save it through
ArticleRevision.save, then point current_revision at it and save the
article. -/
def add_revision (s : ArticleState) : ArticleState :=
  let r : NewRevision :=
    { revision_number := some (add_revision_assigned s),
      previous_revision := s.current_revision.map (fun c => c.id) }
  let sr := ArticleRevision_save s r
  ⟨sr.1.revs, some sr.2, sr.1.nextId⟩

/-- The administrative path (article.py line 316): construct a fresh
ArticleRevision with only the article set and call save directly. -/
def direct_save (s : ArticleState) : ArticleState :=
  (ArticleRevision_save s {}).1

/-- The two persisted revision-creation paths. -/
inductive RevOp where
  | addRev
  | directSave
  deriving DecidableEq

/-- Run one revision-creation path. -/
def applyOp (s : ArticleState) : RevOp → ArticleState
  | .addRev => add_revision s
  | .directSave => direct_save s

/-- Run a sequence of revision-creation paths against a fresh article. -/
def runOps (l : List RevOp) : ArticleState :=
  l.foldl applyOp ArticleState.init

/-- The gap-free sequence 1, 2, ..., k of revision numbers. -/
def natSeq (k : Nat) : List Int :=
  (List.range k).map (fun i : Nat => (i : Int) + 1)

/-- An authenticated site user: primary key, group memberships, and the
rights the external permission policy grants. -/
structure AuthUser where
  userId : Nat
  groups : List Nat
  delete_rights : Bool
  moderate_rights : Bool
  deriving DecidableEq

/-- The acting identity the permission predicates receive: the Django
AnonymousUser sentinel or an authenticated user. -/
inductive Identity where
  | anonymous
  | auth (u : AuthUser)
  deriving DecidableEq

/-- The user.is_anonymous attribute. -/
def Identity.is_anonymous : Identity → Bool
  | .anonymous => true
  | .auth _ => false

/-- The global settings the permission predicates read. Modelled from the
spec: wiki/conf/settings.py is not under src/; ANONYMOUS enables
anonymous reading and ANONYMOUS_WRITE anonymous writing. -/
structure GlobalSettings where
  ANONYMOUS : Bool
  ANONYMOUS_WRITE : Bool
  deriving DecidableEq

/-- The current-revision flags that matter to permission checks. -/
structure CurrentRevisionFlags where
  deleted : Bool
  deriving DecidableEq

/-- The permission-bearing fields of an Article (article.py lines 18-45):
nullable owner and group foreign keys, the four access flags, and the
nullable current revision. -/
structure ArticleRec where
  owner : Option Nat
  group : Option Nat
  group_read : Bool
  group_write : Bool
  other_read : Bool
  other_write : Bool
  current_revision : Option CurrentRevisionFlags
  deriving DecidableEq

/-- Modelled from the spec: the policy collaborator canDelete of
wiki/core/permissions.py, which is not under src/. The spec treats it as
a replaceable policy over (document, identity); it is modelled as a right
carried by the authenticated identity, and an anonymous identity holds no
granted permissions. -/
def can_delete (_a : ArticleRec) (user : Identity) : Bool :=
  match user with
  | .anonymous => false
  | .auth u => u.delete_rights

/-- Modelled from the spec: the policy collaborator canModerate of
wiki/core/permissions.py, which is not under src/, modelled like
can_delete. -/
def can_moderate (_a : ArticleRec) (user : Identity) : Bool :=
  match user with
  | .anonymous => false
  | .auth u => u.moderate_rights

/-- The Python comparison user == self.owner: true only for an
authenticated user whose primary key equals the owner foreign key; the
AnonymousUser never equals a User row, and a null owner equals no user. -/
def isOwner (a : ArticleRec) (user : Identity) : Bool :=
  match user, a.owner with
  | .auth u, some o => u.userId == o
  | _, _ => false

/-- The Python test self.group and user.groups.filter(id=self.group.id):
the article has a group and the identity belongs to it; an anonymous
identity has an empty group set. -/
def inGroup (a : ArticleRec) (user : Identity) : Bool :=
  match a.group, user with
  | some g, .auth u => u.groups.contains g
  | _, _ => false

/-- Truthiness of self.current_revision and self.current_revision.deleted
(article.py line 52). -/
def currentDeleted (a : ArticleRec) : Bool :=
  match a.current_revision with
  | none => false
  | some r => r.deleted

/-- Article.can_read (article.py lines 50-69) for a non-null identity:
deny when the current revision is deleted and the identity lacks delete
rights; deny an anonymous identity unless ANONYMOUS; allow on other_read;
deny any remaining anonymous identity; allow the owner; allow a group
member under group_read; allow a moderator; otherwise deny. -/
def can_read (st : GlobalSettings) (a : ArticleRec) (user : Identity) : Bool :=
  if currentDeleted a && !(can_delete a user) then false
  else if user.is_anonymous && !st.ANONYMOUS then false
  else if a.other_read then true
  else if user.is_anonymous then false
  else if isOwner a user then true
  else if a.group_read && inGroup a user then true
  else if can_moderate a user then true
  else false

/-- Article.can_write (article.py lines 71-86) for a non-null identity:
the same shape as can_read with the write flags and ANONYMOUS_WRITE, and
no deleted short-circuit. The extra null test in line 82 is vacuous for a
non-null identity. -/
def can_write (st : GlobalSettings) (a : ArticleRec) (user : Identity) : Bool :=
  if user.is_anonymous && !st.ANONYMOUS_WRITE then false
  else if a.other_write then true
  else if user.is_anonymous then false
  else if isOwner a user then true
  else if a.group_write && inGroup a user then true
  else if can_moderate a user then true
  else false

/-- The ordered decision claim C3 spells out, written from the words of
the claim: deleted-without-delete-rights deny; anonymous denied unless
the global anonymous-read setting; other_read allow; owner allow;
group_read with membership allow; moderation allow; otherwise deny. -/
def canReadClaim (st : GlobalSettings) (a : ArticleRec) (user : Identity) : Bool :=
  if currentDeleted a && !(can_delete a user) then false
  else if user.is_anonymous && !st.ANONYMOUS then false
  else if a.other_read then true
  else if isOwner a user then true
  else if a.group_read && inGroup a user then true
  else if can_moderate a user then true
  else false

/-- Attribute access user.is_anonymous on the possibly-null user argument:
an AttributeError, modelled as none, when the argument is None. -/
def is_anonymousN : Option Identity → Option Bool
  | none => none
  | some u => some u.is_anonymous

/-- Modelled from the spec: the policy collaborator invoked on a
possibly-null identity reads attributes of the identity, so it fails on
None (wiki/core/permissions.py is not under src/). -/
def can_deleteN (a : ArticleRec) : Option Identity → Option Bool
  | none => none
  | some u => some (can_delete a u)

/-- Article.can_read with its nullable user argument, as declared by the
signature with user defaulting to None: the deleted short-circuit runs
the delete policy on the identity, and the next line reads
user.is_anonymous, so each of those fails (none) on a null identity. -/
def can_readN (st : GlobalSettings) (a : ArticleRec) (user : Option Identity) :
    Option Bool :=
  match (if currentDeleted a then (can_deleteN a user).map (fun d => !d)
         else some false) with
  | none => none
  | some deny =>
    if deny then some false
    else
      match is_anonymousN user with
      | none => none
      | some anon =>
        if anon && !st.ANONYMOUS then some false
        else if a.other_read then some true
        else if anon then some false
        else
          match user with
          | none => none
          | some u =>
            if isOwner a u then some true
            else if a.group_read && inGroup a u then some true
            else if can_moderate a u then some true
            else some false

/-- Article.can_write with its nullable user argument: the first line
reads user.is_anonymous, so it fails (none) on a null identity. -/
def can_writeN (st : GlobalSettings) (a : ArticleRec) (user : Option Identity) :
    Option Bool :=
  match is_anonymousN user with
  | none => none
  | some anon =>
    if anon && !st.ANONYMOUS_WRITE then some false
    else if a.other_write then some true
    else if anon then some false
    else
      match user with
      | none => none
      | some u =>
        if isOwner a u then some true
        else if a.group_write && inGroup a u then some true
        else if can_moderate a u then some true
        else some false

/-- Concrete site: the root node of site 1. -/
def nRoot : URLPathRow := ⟨0, none, 1, none, 0, 100⟩

/-- Concrete node: child a of the root. -/
def nA : URLPathRow := ⟨1, some "a", 1, some 0, 1, 101⟩

/-- Concrete node: child b of a. -/
def nB : URLPathRow := ⟨2, some "b", 1, some 1, 2, 102⟩

/-- Concrete node: child c of b. -/
def nC : URLPathRow := ⟨3, some "c", 1, some 2, 3, 103⟩

/-- A site with one root and the three-level path a/b/c. -/
def dbABC : List URLPathRow := [nRoot, nA, nB, nC]

/-- The node c as resolution returns it, ancestors cached. -/
def resolvedC : ResolvedPath := ⟨nC, [nRoot, nA, nB]⟩

/-- Concrete node: a child created with the mixed-case slug Foo. -/
def nFoo : URLPathRow := ⟨1, some "Foo", 1, some 0, 1, 101⟩

/-- A site with one root and one child whose slug is Foo. -/
def dbFoo : List URLPathRow := [nRoot, nFoo]

/-- Concrete subtree-deletion fixture: a root bound to article 10. -/
def c5root : URLPathRow := ⟨0, none, 1, none, 0, 10⟩

/-- Concrete subtree-deletion fixture: first child, bound to article 11. -/
def c5kid1 : URLPathRow := ⟨1, some "x", 1, some 0, 1, 11⟩

/-- Concrete subtree-deletion fixture: second child, bound to article 12. -/
def c5kid2 : URLPathRow := ⟨2, some "y", 1, some 0, 1, 12⟩

/-- Concrete subtree-deletion fixture: the full state, a target node with
two descendants and their three articles. -/
def c5db : TreeDB := ⟨[c5root, c5kid1, c5kid2], [10, 11, 12]⟩

/-- Claim C4: on a site with exactly one root and nodes created for the
three-level path a/b/c, get_by_path of a/b/c returns the node whose path
string is a/b/c/ with a trailing separator, get_by_path of /a/b/c/
returns the identical node under either case mode, and the path string of
the root itself is empty. -/
theorem path_resolution_roundtrip :
    ∀ ucs : Bool,
      get_by_path dbABC 1 ucs "a/b/c" = .ok resolvedC ∧
      pathString resolvedC = "a/b/c/" ∧
      get_by_path dbABC 1 ucs "/a/b/c/" = .ok resolvedC ∧
      pathString ⟨nRoot, []⟩ = "" := by
  decide

/-- Claim C9: with the global comparison mode case-insensitive, a child
created with slug Foo is returned when resolving foo; with the mode
case-sensitive the same resolution finds no child and fails with the
not-found error raised by the queryset get. -/
theorem case_mode_resolution :
    get_by_path dbFoo 1 false "foo" = .ok ⟨nFoo, [nRoot]⟩ ∧
    get_by_path dbFoo 1 true "foo" = .error .doesNotExist := by
  decide

/-- Claim C7 (code bug evidence): the single-node delete precondition,
assert not (self.parent and self.get_children()), does not protect a
root. On the concrete site dbABC, deleting the child-bearing non-root
node a raises the precondition error, but deleting the root, which has a
child, passes the assert and cascades the whole site away, leaving no
rows. The claim says every child-bearing node, the root included, is
rejected before any mutation. -/
theorem delete_root_bypasses_precondition :
    URLPath_delete dbABC nA = .error .assertionError ∧
    URLPath_delete dbABC nRoot = .ok [] := by
  decide

/-- Claim C6: a path that is empty after trimming separators resolves to
the unique root of the site; with zero roots resolution surfaces the
no-root error and with several roots the multiple-roots error. -/
theorem empty_path_resolves_root (db : List URLPathRow) (site : Nat)
    (ucs : Bool) (p : String) (rt : URLPathRow)
    (h : rstripSlash (lstripSlash p) = "") :
    (db.filter (fun n => n.parent == none && n.site == site) = [rt] →
      get_by_path db site ucs p = .ok ⟨rt, []⟩) ∧
    (db.filter (fun n => n.parent == none && n.site == site) = [] →
      get_by_path db site ucs p = .error .noRootURL) ∧
    (2 ≤ (db.filter (fun n => n.parent == none && n.site == site)).length →
      get_by_path db site ucs p = .error .multipleRootURLs) := by
  have hg : get_by_path db site ucs p = rootOf db site := by
    simp only [get_by_path, h]
    rfl
  refine ⟨fun h1 => ?_, fun h0 => ?_, fun h2 => ?_⟩
  · rw [hg]
    simp only [rootOf, h1]
    rfl
  · rw [hg]
    simp only [rootOf, h0]
    rfl
  · rw [hg]
    simp only [rootOf]
    rw [if_neg (by omega), if_pos (by omega)]

/-- Witness for empty_path_resolves_root: on the concrete site dbABC a
pure-separator path resolves to the root, and on an empty table the
no-root error is surfaced. -/
theorem empty_path_resolves_root_witness :
    get_by_path dbABC 1 true "///" = .ok ⟨nRoot, []⟩ ∧
    get_by_path [] 1 true "" = .error .noRootURL :=
  ⟨(empty_path_resolves_root dbABC 1 true "///" nRoot (by decide)).1 (by decide),
   (empty_path_resolves_root [] 1 true "" nRoot (by decide)).2.1 (by decide)⟩

/-- Composition of two filters into one conjunctive filter. -/
theorem filterComp {α : Type} (p q : α → Bool) (l : List α) :
    (l.filter p).filter q = l.filter (fun x => p x && q x) := by
  induction l with
  | nil => rfl
  | cons x xs ih =>
    by_cases hp : p x <;> by_cases hq : q x <;>
      simp [List.filter_cons, hp, hq, ih]

/-- When some listed deletion fails, the transaction body aborts. -/
theorem runDeletions_none (fails : Nat → Bool) (l : List URLPathRow) :
    ∀ db : TreeDB, l.any (fun d => fails d.article) = true →
      runDeletions fails l db = none := by
  induction l with
  | nil =>
    intro db h
    simp at h
  | cons d t ih =>
    intro db h
    simp only [List.any_cons, Bool.or_eq_true] at h
    by_cases hf : fails d.article
    · simp [runDeletions, hf]
    · have ht : t.any (fun e => fails e.article) = true := by
        rcases h with h | h
        · exact absurd h hf
        · exact h
      simp [runDeletions, hf, ih _ ht]

/-- When no listed deletion fails, the transaction body removes exactly
the listed articles and the rows bound to them. -/
theorem runDeletions_some (fails : Nat → Bool) (l : List URLPathRow) :
    ∀ db : TreeDB, l.any (fun d => fails d.article) = false →
      runDeletions fails l db =
        some ⟨db.nodes.filter (fun m => l.all (fun d => m.article != d.article)),
              db.articles.filter (fun x => l.all (fun d => x != d.article))⟩ := by
  induction l with
  | nil =>
    intro db h
    simp [runDeletions]
  | cons d t ih =>
    intro db h
    simp only [List.any_cons, Bool.or_eq_false_iff] at h
    obtain ⟨hf, ht⟩ := h
    simp only [runDeletions, hf, Bool.false_eq_true, if_false]
    rw [ih _ ht]
    simp only [deleteArticle, filterComp, List.all_cons]

/-- Claim C5: delete_subtree removes the target together with every
descendant and the article of each, and it is atomic: when the failure
oracle makes any deletion in the deepest-first subtree listing raise, the
state is returned untouched with the failure logged; when none fails, the
subtree rows and their articles are removed and nothing else. -/
theorem delete_subtree_atomic (db : TreeDB) (n : URLPathRow) (fails : Nat → Bool) :
    ((orderedSubtree db.nodes n).any (fun d => fails d.article) = true →
      delete_subtree db n fails = (db, true)) ∧
    ((orderedSubtree db.nodes n).any (fun d => fails d.article) = false →
      delete_subtree db n fails =
        (⟨db.nodes.filter (fun m =>
            (orderedSubtree db.nodes n).all (fun d => m.article != d.article)),
          db.articles.filter (fun x =>
            (orderedSubtree db.nodes n).all (fun d => x != d.article))⟩,
         false)) := by
  constructor
  · intro h
    simp [delete_subtree, runDeletions_none fails _ db h]
  · intro h
    simp [delete_subtree, runDeletions_some fails _ db h]

/-- Witness for delete_subtree_atomic: on a target with two descendants,
making the deletion of article 11 fail leaves all three nodes and all
three articles intact with the failure logged, while a failure-free run
purges everything. -/
theorem delete_subtree_atomic_witness :
    delete_subtree c5db c5root (fun a => a == 11) = (c5db, true) ∧
    delete_subtree c5db c5root (fun _ => false) = (⟨[], []⟩, false) := by
  constructor
  · exact (delete_subtree_atomic c5db c5root (fun a => a == 11)).1 (by decide)
  · have h := (delete_subtree_atomic c5db c5root (fun _ => false)).2 (by decide)
    exact h.trans (by decide)

/-- The gap-free sequence extends at the right end. -/
theorem natSeq_succ (k : Nat) : natSeq (k + 1) = natSeq k ++ [(k : Int) + 1] := by
  simp [natSeq, List.range_succ]

/-- Maximum of a list with one element appended. -/
theorem maxNum_append (l : List Int) (a : Int) :
    maxNum (l ++ [a]) =
      some (match maxNum l with | none => a | some m => max m a) := by
  induction l with
  | nil => rfl
  | cons x xs ih =>
    have hx : maxNum ((x :: xs) ++ [a]) =
        match maxNum (xs ++ [a]) with
        | none => some x
        | some m => some (max x m) := rfl
    rw [hx, ih]
    cases h : maxNum xs <;> simp [maxNum, h, max_assoc]

/-- Maximum of the gap-free sequence 1..k. -/
theorem maxNum_natSeq (k : Nat) :
    maxNum (natSeq k) = if k = 0 then none else some (k : Int) := by
  induction k with
  | zero => rfl
  | succ j ih =>
    rw [natSeq_succ, maxNum_append, ih]
    cases j with
    | zero => simp
    | succ i =>
      simp only [Nat.succ_ne_zero, if_neg, if_false, Nat.add_eq_zero, and_false]
      rw [max_eq_right (by push_cast; omega)]
      push_cast
      ring_nf

/-- Under the gap-free invariant, latest() yields the length of the
revision set. -/
theorem latestNum_inv (s : ArticleState) (h : seqNums s = natSeq s.revs.length) :
    latestNum s = if s.revs.length = 0 then none else some (s.revs.length : Int) := by
  rw [latestNum, h, maxNum_natSeq]

/-- Under the gap-free invariant, one add_revision call with save appends
one row numbered length plus one, linked back to the current revision as
of the call, and points current_revision at that row. -/
theorem add_revision_eq (s : ArticleState) (h : seqNums s = natSeq s.revs.length) :
    add_revision s =
      ⟨s.revs ++ [⟨s.nextId, (s.revs.length : Int) + 1,
          s.current_revision.map (fun c => c.id)⟩],
        some ⟨s.nextId, (s.revs.length : Int) + 1,
          s.current_revision.map (fun c => c.id)⟩,
        s.nextId + 1⟩ := by
  have hl := latestNum_inv s h
  cases hk : s.revs.length with
  | zero =>
    rw [hk] at hl
    simp only [if_pos rfl] at hl
    cases hc : s.current_revision <;>
      simp [add_revision, add_revision_assigned, ArticleRevision_save, hl, hc,
        truthyNum, hk]
  | succ j =>
    rw [hk] at hl
    simp only [Nat.succ_ne_zero, if_false, if_neg] at hl
    have hne : (((j + 1 : Nat) : Int) + 1) ≠ 0 := by push_cast; omega
    cases hc : s.current_revision <;>
      simp [add_revision, add_revision_assigned, ArticleRevision_save, hl, hc,
        truthyNum, hk, hne]

/-- Under the gap-free invariant, one direct ArticleRevision.save on a
fresh revision appends one row numbered length plus one, linked back to
the current revision, and promotes it to current only when the article
had no current revision. -/
theorem direct_save_eq (s : ArticleState) (h : seqNums s = natSeq s.revs.length) :
    direct_save s =
      ⟨s.revs ++ [⟨s.nextId, (s.revs.length : Int) + 1,
          s.current_revision.map (fun c => c.id)⟩],
        (match s.current_revision with
          | some c => some c
          | none => some ⟨s.nextId, (s.revs.length : Int) + 1, none⟩),
        s.nextId + 1⟩ := by
  have hl := latestNum_inv s h
  cases hk : s.revs.length with
  | zero =>
    rw [hk] at hl
    simp only [if_pos rfl] at hl
    cases hc : s.current_revision <;>
      simp [direct_save, ArticleRevision_save, hl, hc, truthyNum, hk]
  | succ j =>
    rw [hk] at hl
    simp only [Nat.succ_ne_zero, if_false, if_neg] at hl
    cases hc : s.current_revision <;>
      simp [direct_save, ArticleRevision_save, hl, hc, truthyNum, hk]

/-- Each creation path preserves the gap-free invariant and grows the
revision set by one. -/
theorem applyOp_inv (s : ArticleState) (op : RevOp)
    (h : seqNums s = natSeq s.revs.length) :
    seqNums (applyOp s op) = natSeq (applyOp s op).revs.length := by
  cases op with
  | addRev =>
    rw [show applyOp s RevOp.addRev = add_revision s from rfl, add_revision_eq s h]
    simp only [seqNums] at h ⊢
    simp [natSeq_succ, h]
  | directSave =>
    rw [show applyOp s RevOp.directSave = direct_save s from rfl, direct_save_eq s h]
    simp only [seqNums] at h ⊢
    simp [natSeq_succ, h]

/-- The gap-free invariant holds after any interleaving of the two
creation paths. -/
theorem runOps_inv (l : List RevOp) :
    seqNums (runOps l) = natSeq (runOps l).revs.length := by
  suffices hgen : ∀ s : ArticleState, seqNums s = natSeq s.revs.length →
      seqNums (l.foldl applyOp s) = natSeq (l.foldl applyOp s).revs.length from
    hgen ArticleState.init rfl
  induction l with
  | nil => intro s hs; simpa using hs
  | cons op t ih =>
    intro s hs
    rw [List.foldl_cons]
    exact ih _ (applyOp_inv s op hs)

/-- Each creation path leaves a non-null current revision behind. -/
theorem applyOp_current_isSome (s : ArticleState) (op : RevOp)
    (h : seqNums s = natSeq s.revs.length) :
    (applyOp s op).current_revision.isSome = true := by
  cases op with
  | addRev =>
    rw [show applyOp s RevOp.addRev = add_revision s from rfl, add_revision_eq s h]
    rfl
  | directSave =>
    rw [show applyOp s RevOp.directSave = direct_save s from rfl, direct_save_eq s h]
    cases s.current_revision <;> rfl

/-- Under the gap-free invariant, after add_revision the current revision
carries the maximal revision number. -/
theorem add_revision_current_max (s : ArticleState)
    (h : seqNums s = natSeq s.revs.length) :
    (add_revision s).current_revision.map (fun r => r.revision_number) =
      latestNum (add_revision s) := by
  rw [add_revision_eq s h]
  simp only [latestNum, seqNums, List.map_append, List.map_cons, List.map_nil,
    Option.map_some]
  have hs : s.revs.map (fun r => r.revision_number) = natSeq s.revs.length := h
  rw [hs, ← natSeq_succ, maxNum_natSeq]
  simp

/-- Counterexample to claim C1 as stated: after an add_revision followed
by a direct ArticleRevision.save, both successful persisted revision
adds, the current revision still carries number 1 while the maximal
revision number is 2, because the direct save only promotes itself when
the article has no current revision. -/
theorem direct_save_current_not_max :
    (runOps [RevOp.addRev, RevOp.directSave]).current_revision.map
        (fun r => r.revision_number) = some 1 ∧
    latestNum (runOps [RevOp.addRev, RevOp.directSave]) = some 2 ∧
    ¬ (runOps [RevOp.addRev, RevOp.directSave]).current_revision.map
          (fun r => r.revision_number) =
        latestNum (runOps [RevOp.addRev, RevOp.directSave]) := by
  decide

/-- Claim C1 amended: after any nonempty interleaving of the two persisted
revision-creation paths, the revision numbers in persistence order are
exactly the gap-free, duplicate-free, strictly increasing sequence
1..length, and current_revision is non-null; current_revision carries the
maximal revision number whenever the last add went through
Article.add_revision, while a direct ArticleRevision.save leaves an
already-set current pointer where it was. -/
theorem revision_add_invariants (l : List RevOp) (h : l ≠ []) :
    seqNums (runOps l) = natSeq (runOps l).revs.length ∧
    (runOps l).current_revision.isSome = true ∧
    (∀ lp, l = lp ++ [RevOp.addRev] →
      (runOps l).current_revision.map (fun r => r.revision_number) =
        latestNum (runOps l)) := by
  refine ⟨runOps_inv l, ?_, ?_⟩
  · rcases (List.eq_nil_or_concat l).resolve_left h with ⟨lp, op, rfl⟩
    have hrun : runOps (lp.concat op) = applyOp (runOps lp) op := by
      simp [runOps, List.concat_eq_append, List.foldl_append]
    rw [hrun]
    exact applyOp_current_isSome _ _ (runOps_inv lp)
  · intro lp hlp
    subst hlp
    have hrun : runOps (lp ++ [RevOp.addRev]) = add_revision (runOps lp) := by
      simp [runOps, List.foldl_append, applyOp]
    rw [hrun]
    exact add_revision_current_max _ (runOps_inv lp)

/-- Witness for revision_add_invariants: after one add_revision the
current revision carries the maximal revision number. -/
theorem revision_add_invariants_witness :
    (runOps [RevOp.addRev]).current_revision.map (fun r => r.revision_number) =
      latestNum (runOps [RevOp.addRev]) :=
  (revision_add_invariants [RevOp.addRev] (by decide)).2.2 [] rfl

/-- Counterexample to claim C2 as stated: on a document with no prior
revisions, add_revision with save assigns revision number 0 before
saving, but the revision ends up persisted with revision number 1, not 0,
because ArticleRevision.save treats 0 as unset and re-derives it. -/
theorem first_revision_persisted_as_one :
    add_revision_assigned ArticleState.init = 0 ∧
    seqNums (runOps [RevOp.addRev]) = [1] ∧
    ¬ seqNums (runOps [RevOp.addRev]) = [0] := by
  decide

/-- Claim C2 amended: on any reachable article state, add_revision assigns
largest existing revision number plus one, or 0 with no revisions yet;
links previous_revision to the pre-call current revision; persists the
revision and then points current_revision at it. The persisted number is
length plus one throughout: in particular a first revision added with
save is persisted with revision number 1, the pre-save 0 being re-derived
inside ArticleRevision.save. -/
theorem add_revision_contract (l : List RevOp) :
    add_revision_assigned (runOps l) =
      (if (runOps l).revs.length = 0 then 0
        else ((runOps l).revs.length : Int) + 1) ∧
    add_revision (runOps l) =
      ⟨(runOps l).revs ++ [⟨(runOps l).nextId, ((runOps l).revs.length : Int) + 1,
          (runOps l).current_revision.map (fun c => c.id)⟩],
        some ⟨(runOps l).nextId, ((runOps l).revs.length : Int) + 1,
          (runOps l).current_revision.map (fun c => c.id)⟩,
        (runOps l).nextId + 1⟩ := by
  have h := runOps_inv l
  constructor
  · rw [add_revision_assigned, latestNum_inv _ h]
    cases hk : (runOps l).revs.length <;> simp [hk]
  · exact add_revision_eq _ h

/-- Claim C10: every revision persisted through ArticleRevision.save on a
reachable state carries a revision number of at least 1, and save treats
a falsy revision number (unset or 0) as absent, re-deriving it as the
latest existing number plus one, or 1 when the article has none. -/
theorem save_renumbers_unset (l : List RevOp) (u : NewRevision) :
    (∀ rv ∈ (runOps l).revs, 1 ≤ rv.revision_number) ∧
    (truthyNum u.revision_number = false →
      (ArticleRevision_save (runOps l) u).2.revision_number =
        (match latestNum (runOps l) with
          | none => 1
          | some m => m + 1)) := by
  constructor
  · intro rv hrv
    have h := runOps_inv l
    have hmem : rv.revision_number ∈ seqNums (runOps l) :=
      List.mem_map_of_mem _ hrv
    rw [h, natSeq] at hmem
    obtain ⟨i, hlt, hi⟩ := List.mem_map.mp hmem
    omega
  · intro hu
    simp [ArticleRevision_save, hu]

/-- Witness for save_renumbers_unset: saving a fresh revision carrying the
number 0 that add_revision put on a first revision persists it with
number 1. -/
theorem save_renumbers_unset_witness :
    (ArticleRevision_save (runOps []) ⟨none, some 0, none⟩).2.revision_number = 1 := by
  have h := (save_renumbers_unset [] ⟨none, some 0, none⟩).2 (by decide)
  exact h.trans (by decide)

/-- Claim C3: can_read evaluates the ordered decision the claim spells
out, and consequently on a document with other_read false, group_read
true and a group, a non-member non-owner non-moderator identity is
denied while a member of the group is allowed, the document not being
logically deleted. -/
theorem can_read_ordered_decision (st : GlobalSettings) (a : ArticleRec)
    (u : Identity) (w : AuthUser) (g : Nat) :
    can_read st a u = canReadClaim st a u ∧
    (a.other_read = false → a.group_read = true → a.group = some g →
      currentDeleted a = false →
      ((isOwner a u = false → inGroup a u = false → can_moderate a u = false →
          can_read st a u = false) ∧
        (w.groups.contains g = true →
          can_read st a (Identity.auth w) = true))) := by
  constructor
  · cases u with
    | anonymous =>
      cases hcd : currentDeleted a <;> cases han : st.ANONYMOUS <;>
        cases hor : a.other_read <;> cases hg : a.group <;>
          simp [can_read, canReadClaim, can_delete, can_moderate, isOwner, inGroup,
            Identity.is_anonymous, hcd, han, hor, hg]
    | auth w2 =>
      simp [can_read, canReadClaim, Identity.is_anonymous]
  · intro hor hgr hg hcd
    constructor
    · intro how hig hmod
      cases u with
      | anonymous =>
        cases han : st.ANONYMOUS <;>
          simp [can_read, can_delete, can_moderate, isOwner, inGroup,
            Identity.is_anonymous, hcd, hor, han]
      | auth w2 =>
        simp [can_read, Identity.is_anonymous, hcd, hor, how, hig, hmod]
    · intro hmem
      have hmem2 : g ∈ w.groups := by simpa using hmem
      cases ho : isOwner a (Identity.auth w) <;>
        simp [can_read, Identity.is_anonymous, hcd, hor, hgr, hg, inGroup,
          hmem, hmem2, ho]

/-- Witness for can_read_ordered_decision: on a concrete document with
other_read false, group_read true and group 5, the non-member
non-owner non-moderator user 1 is denied and the member user 2 is
allowed. -/
theorem can_read_ordered_decision_witness :
    can_read ⟨true, true⟩ ⟨none, some 5, true, true, false, false, none⟩
        (Identity.auth ⟨1, [], false, false⟩) = false ∧
    can_read ⟨true, true⟩ ⟨none, some 5, true, true, false, false, none⟩
        (Identity.auth ⟨2, [5], false, false⟩) = true := by
  have h := can_read_ordered_decision ⟨true, true⟩
    ⟨none, some 5, true, true, false, false, none⟩
    (Identity.auth ⟨1, [], false, false⟩) ⟨2, [5], false, false⟩ 5
  exact ⟨(h.2 rfl rfl rfl rfl).1 (by decide) (by decide) (by decide),
    (h.2 rfl rfl rfl rfl).2 (by decide)⟩

/-- Counterexample to claim C8 as stated: on a concrete document, calling
the permission predicates with a null acting identity fails at the first
attribute access on the identity, modelled as none, instead of returning
a boolean. -/
theorem null_identity_crashes :
    can_readN ⟨true, true⟩ ⟨none, none, true, true, true, true, none⟩ none = none ∧
    can_writeN ⟨true, true⟩ ⟨none, none, true, true, true, true, none⟩ none = none := by
  decide

/-- Claim C8 amended: can_read and can_write accept a nullable identity,
and for every non-null identity, the anonymous sentinel included, they
return a boolean, agreeing with the total predicates; a null identity
however makes both fail at the attribute access on the identity rather
than return a boolean. -/
theorem nullable_identity_totality (st : GlobalSettings) (a : ArticleRec) :
    can_readN st a none = none ∧
    can_writeN st a none = none ∧
    (∀ u : Identity, can_readN st a (some u) = some (can_read st a u) ∧
      can_writeN st a (some u) = some (can_write st a u)) := by
  refine ⟨?_, ?_, ?_⟩
  · cases hcd : currentDeleted a <;>
      simp [can_readN, can_deleteN, is_anonymousN, hcd]
  · simp [can_writeN, is_anonymousN]
  · intro u
    constructor
    · cases u with
      | anonymous =>
        cases hcd : currentDeleted a <;> cases han : st.ANONYMOUS <;>
          cases hor : a.other_read <;>
            simp [can_readN, can_read, can_deleteN, is_anonymousN, can_delete,
              can_moderate, Identity.is_anonymous, hcd, han, hor]
      | auth w =>
        cases hcd : currentDeleted a <;> cases hdr : w.delete_rights <;>
          cases hor : a.other_read <;> cases how : isOwner a (Identity.auth w) <;>
            cases hgr : a.group_read <;> cases hig : inGroup a (Identity.auth w) <;>
              cases hmo : w.moderate_rights <;>
                simp [can_readN, can_read, can_deleteN, is_anonymousN, can_delete,
                  can_moderate, Identity.is_anonymous, hcd, hdr, hor, how, hgr,
                  hig, hmo]
    · cases u with
      | anonymous =>
        cases haw : st.ANONYMOUS_WRITE <;> cases hor : a.other_write <;>
          simp [can_writeN, can_write, is_anonymousN, can_moderate,
            Identity.is_anonymous, haw, hor]
      | auth w =>
        cases hor : a.other_write <;> cases how : isOwner a (Identity.auth w) <;>
          cases hgr : a.group_write <;> cases hig : inGroup a (Identity.auth w) <;>
            cases hmo : w.moderate_rights <;>
              simp [can_writeN, can_write, is_anonymousN, can_moderate,
                Identity.is_anonymous, hor, how, hgr, hig, hmo]

end WikiModel
